import Mathlib

/-!
# three-journey-procedural-map: verification of `src/script.js`

A shallow embedding of the procedural parts of the scene script: the cloud
density fill loop, its radial falloff, the board built by boolean subtraction,
the terrain materials sharing one uniforms block, and the per-frame `tick`.

JavaScript numbers are idealised as exact numbers: naturals for counters and
indices, rationals and reals for coordinates and densities.
-/

namespace ProceduralMap

/-! ## Cloud volume: the fill loop (script.js, lines 148-172) -/

/-- One executed store `cloudData[i] = ...` of the fill loop: the index used
and the lattice point it was computed for. -/
structure CellWrite where
  index : Nat
  x : Nat
  y : Nat
  z : Nat
  deriving DecidableEq, Repr

/-- Variables of the fill loop: the byte buffer `cloudData`, the running index
`i`, and (ghost) the stores executed so far, oldest first. -/
structure FillState where
  cloudData : List Nat
  i : Nat
  writes : List CellWrite
  deriving DecidableEq, Repr

/-- A store into a typed array: `List.set` leaves the buffer unchanged when the
index is out of bounds, as a `Uint8Array` does. -/
def storeCell (buf : List Nat) (i v : Nat) : List Nat := buf.set i v

/-- Body of the innermost loop: `cloudData[i] = cell(x, y, z); i++`. The
function `cell` gives the byte that ends up stored for a lattice point. -/
def fillBody (cell : Nat → Nat → Nat → Nat) (z y : Nat) (st : FillState) (x : Nat) :
    FillState :=
  { cloudData := storeCell st.cloudData st.i (cell x y z)
    i := st.i + 1
    writes := st.writes ++ [⟨st.i, x, y, z⟩] }

/-- Loop `for (let x = 0; x < size; x++)`. -/
def fillLoopX (cell : Nat → Nat → Nat → Nat) (size z y : Nat) (st : FillState) : FillState :=
  (List.range size).foldl (fillBody cell z y) st

/-- Loop `for (let y = 0; y < size; y++)`. -/
def fillLoopY (cell : Nat → Nat → Nat → Nat) (size z : Nat) (st : FillState) : FillState :=
  (List.range size).foldl (fun s y => fillLoopX cell size z y s) st

/-- Loop `for (let z = 0; z < size; z++)`. -/
def fillLoopZ (cell : Nat → Nat → Nat → Nat) (size : Nat) (st : FillState) : FillState :=
  (List.range size).foldl (fun s z => fillLoopY cell size z s) st

/-- State before the loops: `new Uint8Array(size * size * size)` is
zero-filled and `let i = 0`. -/
def fillInit (size : Nat) : FillState :=
  { cloudData := List.replicate (size * size * size) 0, i := 0, writes := [] }

/-- The whole fill: allocation followed by the three nested loops. -/
def fillCloud (cell : Nat → Nat → Nat → Nat) (size : Nat) : FillState :=
  fillLoopZ cell size (fillInit size)

/-- Invariant of the fill: `m` stores have been done, with indices
`0, 1, ..., m-1` in this order, each at the row-major index of its lattice
point, and the buffer holds the stored byte at each of them. -/
def FillInv (cell : Nat → Nat → Nat → Nat) (size m : Nat) (st : FillState) : Prop :=
  st.i = m ∧ st.cloudData.length = size * size * size ∧
  st.writes.map CellWrite.index = List.range m ∧
  ∀ w ∈ st.writes, w.x < size ∧ w.y < size ∧ w.z < size ∧
    w.index = w.x + size * w.y + size * size * w.z ∧
    st.cloudData[w.index]? = some (cell w.x w.y w.z)

/-! ## Cloud volume: the radial falloff (script.js, lines 157-168) -/

/-- One component of the vector after `.subScalar(size / 2).divideScalar(size)`. -/
noncomputable def centred (size x : Nat) : ℝ := ((x : ℝ) - (size : ℝ) / 2) / (size : ℝ)

/-- `Vector3.length()`: the Euclidean norm of a triple. -/
noncomputable def vecLength (a b c : ℝ) : ℝ := Real.sqrt (a * a + b * b + c * c)

/-- The falloff `d` of script.js, lines 157-163. -/
noncomputable def falloff (size x y z : Nat) : ℝ :=
  1 - vecLength (centred size x) (centred size y) (centred size z)

/-- The factor `d * d` of lines 167-168. -/
noncomputable def weight (size x y z : Nat) : ℝ := falloff size x y z * falloff size x y z

/-- Euclidean distance of the lattice point `(x, y, z)` from the centre
`(size/2, size/2, size/2)` of the volume. -/
noncomputable def centreDist (size x y z : Nat) : ℝ :=
  Real.sqrt (((x : ℝ) - size / 2) ^ 2 + ((y : ℝ) - size / 2) ^ 2 + ((z : ℝ) - size / 2) ^ 2)

/-! ## Scene state (script.js, lines 48-72, 184-193, 259-295) -/

/-- A `THREE.Color`, given by its 24-bit hex code. -/
structure Color where
  hex : Nat
  deriving DecidableEq, Repr

/-- A `THREE.Vector3`. -/
structure Vector3 where
  x : ℚ
  y : ℚ
  z : ℚ
  deriving DecidableEq, Repr

/-- The six palette entries of `debugObject` (lines 48-53). -/
structure DebugObject where
  colorWaterDeep : Color
  colorWaterSurface : Color
  colorSand : Color
  colorGrass : Color
  colorSnow : Color
  colorRock : Color
  deriving DecidableEq, Repr

/-- The terrain `uniforms` block (lines 55-72). -/
structure Uniforms where
  uTime : ℚ
  uPositionFrequency : ℚ
  uStrength : ℚ
  uWarpFrequency : ℚ
  uWarpStrength : ℚ
  uColorWaterDeep : Color
  uColorWaterSurface : Color
  uColorSand : Color
  uColorGrass : Color
  uColorSnow : Color
  uColorRock : Color
  deriving DecidableEq, Repr

/-- The textures of the script. -/
inductive Texture where
  | cloudTexture
  deriving DecidableEq, Repr

/-- The block `cloudMaterial.uniforms` (lines 184-193). -/
structure CloudUniforms where
  base : Color
  map : Texture
  cameraPos : Vector3
  threshold : ℚ
  opacity : ℚ
  range : ℚ
  steps : Nat
  frame : Nat
  deriving DecidableEq, Repr

/-- The perspective camera: its position and aspect ratio. -/
structure Camera where
  position : Vector3
  aspect : ℚ
  deriving DecidableEq, Repr

/-- The `sizes` object (lines 259-263). -/
structure Sizes where
  width : ℚ
  height : ℚ
  pixelRatio : ℚ
  deriving DecidableEq, Repr

/-- What one `renderer.render(scene, camera)` call reads: the uniform values
and the camera at the moment of submission. -/
structure Frame where
  uniforms : Uniforms
  cloudUniforms : CloudUniforms
  camera : Camera
  deriving DecidableEq, Repr

/-- The observable effects of the statements of `tick`. -/
inductive Effect where
  | writeTime (elapsedTime : ℚ)
  | copyCameraPos (position : Vector3)
  | incrementFrame
  | controlsUpdate
  | render (frame : Frame)
  | requestAnimationFrame
  deriving DecidableEq, Repr

/-- An effect that assigns to a uniform. -/
def Effect.isUniformWrite : Effect → Bool
  | .writeTime _ => true
  | .copyCameraPos _ => true
  | .incrementFrame => true
  | _ => false

/-- An effect that submits a frame to the renderer. -/
def Effect.isRender : Effect → Bool
  | .render _ => true
  | _ => false

/-- The mutable state the script's callbacks act on. `controls` is the
internal state of the orbit controls, `scheduled` counts the animation-frame
callbacks requested so far, `frames` are the frames rendered so far and
`log` the effects performed so far, both oldest first. -/
structure World where
  debugObject : DebugObject
  uniforms : Uniforms
  cloudUniforms : CloudUniforms
  camera : Camera
  sizes : Sizes
  controls : List ℚ
  environmentLoaded : Bool
  scheduled : Nat
  frames : List Frame
  log : List Effect
  deriving DecidableEq, Repr

/-- The collaborators the script calls into: `controls.update()` of the orbit
controls acts on the controls state and the camera. -/
structure Env where
  controlsUpdate : List ℚ → Camera → List ℚ × Camera

/-- The state right after the script's top-level statements, before the first
`tick()`: the constants of lines 48-72, 184-193 and 290. -/
def initialWorld (sizes : Sizes) : World :=
  { debugObject :=
      { colorWaterDeep := ⟨0x002b3d⟩, colorWaterSurface := ⟨0x66a8ff⟩, colorSand := ⟨0xffe894⟩,
        colorGrass := ⟨0x85d534⟩, colorSnow := ⟨0xffffff⟩, colorRock := ⟨0xbfbd8d⟩ }
    uniforms :=
      { uTime := 0, uPositionFrequency := 0.2, uStrength := 2.0, uWarpFrequency := 5,
        uWarpStrength := 0.5,
        uColorWaterDeep := ⟨0x002b3d⟩, uColorWaterSurface := ⟨0x66a8ff⟩,
        uColorSand := ⟨0xffe894⟩, uColorGrass := ⟨0x85d534⟩, uColorSnow := ⟨0xffffff⟩,
        uColorRock := ⟨0xbfbd8d⟩ }
    cloudUniforms :=
      { base := ⟨0x798aa0⟩, map := .cloudTexture, cameraPos := ⟨0, 0, 0⟩, threshold := 0.25,
        opacity := 0.25, range := 0.1, steps := 100, frame := 0 }
    camera := { position := ⟨-10, 6, -2⟩, aspect := sizes.width / sizes.height }
    sizes := sizes
    controls := []
    environmentLoaded := false
    scheduled := 0
    frames := []
    log := [] }

/-! ## The frame callback `tick` (script.js, lines 316-334) -/

/-- Line 320: `uniforms.uTime.value = elapsedTime`. -/
def writeTime (elapsedTime : ℚ) (w : World) : World :=
  { w with
    uniforms := { w.uniforms with uTime := elapsedTime }
    log := w.log ++ [Effect.writeTime elapsedTime] }

/-- Line 323: `cloudMaterial.uniforms.cameraPos.value.copy(camera.position)`. -/
def copyCameraPos (w : World) : World :=
  { w with
    cloudUniforms := { w.cloudUniforms with cameraPos := w.camera.position }
    log := w.log ++ [Effect.copyCameraPos w.camera.position] }

/-- Line 324: `cloudMaterial.uniforms.frame.value++`. -/
def incrementFrame (w : World) : World :=
  { w with
    cloudUniforms := { w.cloudUniforms with frame := w.cloudUniforms.frame + 1 }
    log := w.log ++ [Effect.incrementFrame] }

/-- Line 327: `controls.update()`. -/
def updateControls (env : Env) (w : World) : World :=
  { w with
    controls := (env.controlsUpdate w.controls w.camera).1
    camera := (env.controlsUpdate w.controls w.camera).2
    log := w.log ++ [Effect.controlsUpdate] }

/-- The frame a render call submits in state `w`. -/
def currentFrame (w : World) : Frame :=
  { uniforms := w.uniforms, cloudUniforms := w.cloudUniforms, camera := w.camera }

/-- Line 330: `renderer.render(scene, camera)`. -/
def render (w : World) : World :=
  { w with
    frames := w.frames ++ [currentFrame w]
    log := w.log ++ [Effect.render (currentFrame w)] }

/-- Line 333: `window.requestAnimationFrame(tick)`. -/
def requestAnimationFrame (w : World) : World :=
  { w with scheduled := w.scheduled + 1, log := w.log ++ [Effect.requestAnimationFrame] }

/-- The callback `tick`; `elapsedTime` is what `clock.getElapsedTime()`
returns in this call (line 317). -/
def tick (env : Env) (elapsedTime : ℚ) (w : World) : World :=
  requestAnimationFrame (render (updateControls env (incrementFrame (copyCameraPos
    (writeTime elapsedTime w)))))

/-- The biome a colour control of the panel is bound to (lines 81-102). -/
inductive Biome where
  | waterDeep | waterSurface | sand | grass | snow | rock
  deriving DecidableEq, Repr

/-- The callbacks the browser can run once the script has been loaded. -/
inductive Event where
  | tick (elapsedTime : ℚ)
  | guiPositionFrequency (value : ℚ)
  | guiStrength (value : ℚ)
  | guiWarpFrequency (value : ℚ)
  | guiWarpStrength (value : ℚ)
  | guiColor (biome : Biome) (color : Color)
  | resize (innerWidth innerHeight devicePixelRatio : ℚ)
  | environmentMapLoaded
  deriving DecidableEq, Repr

/-- A colour control: the panel stores the colour in `debugObject`, then the
`onChange` handler copies it into the uniform (lines 81-102). -/
def setColor (b : Biome) (c : Color) (w : World) : World :=
  match b with
  | .waterDeep =>
    { w with debugObject := { w.debugObject with colorWaterDeep := c }
             uniforms := { w.uniforms with uColorWaterDeep := c } }
  | .waterSurface =>
    { w with debugObject := { w.debugObject with colorWaterSurface := c }
             uniforms := { w.uniforms with uColorWaterSurface := c } }
  | .sand =>
    { w with debugObject := { w.debugObject with colorSand := c }
             uniforms := { w.uniforms with uColorSand := c } }
  | .grass =>
    { w with debugObject := { w.debugObject with colorGrass := c }
             uniforms := { w.uniforms with uColorGrass := c } }
  | .snow =>
    { w with debugObject := { w.debugObject with colorSnow := c }
             uniforms := { w.uniforms with uColorSnow := c } }
  | .rock =>
    { w with debugObject := { w.debugObject with colorRock := c }
             uniforms := { w.uniforms with uColorRock := c } }

/-- The `resize` listener (lines 265-278). -/
def onResize (innerWidth innerHeight devicePixelRatio : ℚ) (w : World) : World :=
  { w with
    sizes := { width := innerWidth, height := innerHeight,
               pixelRatio := min devicePixelRatio 2 }
    camera := { w.camera with aspect := innerWidth / innerHeight } }

/-- One callback run. -/
def step (env : Env) (w : World) : Event → World
  | .tick elapsedTime => tick env elapsedTime w
  | .guiPositionFrequency v => { w with uniforms := { w.uniforms with uPositionFrequency := v } }
  | .guiStrength v => { w with uniforms := { w.uniforms with uStrength := v } }
  | .guiWarpFrequency v => { w with uniforms := { w.uniforms with uWarpFrequency := v } }
  | .guiWarpStrength v => { w with uniforms := { w.uniforms with uWarpStrength := v } }
  | .guiColor b c => setColor b c w
  | .resize iw ih dpr => onResize iw ih dpr w
  | .environmentMapLoaded => { w with environmentLoaded := true }

/-- A run of the page: the callbacks executed one after the other. -/
def run (env : Env) (w : World) (events : List Event) : World :=
  events.foldl (step env) w

/-- Whether a callback run is a `tick`. -/
def Event.isTick : Event → Bool
  | .tick _ => true
  | _ => false

/-! ## Board (script.js, lines 224-239) -/

/-- A `THREE.BoxGeometry(width, height, depth)`: an axis-aligned box centred
at the origin. -/
structure BoxGeometry where
  width : ℚ
  height : ℚ
  depth : ℚ
  deriving DecidableEq, Repr

/-- Line 224: the outer box. -/
def boardFill : BoxGeometry := ⟨11, 2, 11⟩

/-- Line 225: the box that is cut out. -/
def boardHole : BoxGeometry := ⟨10, 2.1, 10⟩

/-- Volume of a box. -/
def BoxGeometry.volume (b : BoxGeometry) : ℚ := b.width * b.height * b.depth

/-- A box is degenerate when it encloses no volume. -/
def BoxGeometry.degenerate (b : BoxGeometry) : Prop := b.volume = 0

instance (b : BoxGeometry) : Decidable b.degenerate := by
  unfold BoxGeometry.degenerate
  infer_instance

/-- The points of space a box occupies. -/
def BoxGeometry.solid (b : BoxGeometry) : Set (ℝ × ℝ × ℝ) :=
  Set.Icc (-((b.width : ℝ) / 2)) ((b.width : ℝ) / 2) ×ˢ
    (Set.Icc (-((b.height : ℝ) / 2)) ((b.height : ℝ) / 2) ×ˢ
      Set.Icc (-((b.depth : ℝ) / 2)) ((b.depth : ℝ) / 2))

/-- Modelled from the spec: the evaluator of three-bvh-csg, which line 228
calls, is not part of the sources; section 4.5 and the glossary describe its
`SUBTRACTION` as the boolean subtraction of two solids, here the points of `a`
that are not points of `b`. -/
def subtractionSolid (a b : BoxGeometry) : Set (ℝ × ℝ × ℝ) := a.solid \ b.solid

/-- The part two boxes centred at the origin have in common: the box of the
smaller extents. -/
def BoxGeometry.common (a b : BoxGeometry) : BoxGeometry :=
  ⟨min a.width b.width, min a.height b.height, min a.depth b.depth⟩

/-- Closed form of the volume enclosed by `subtractionSolid a b`: the volume of
`a` minus the volume of the common part. -/
def subtractionVolume (a b : BoxGeometry) : ℚ := a.volume - (a.common b).volume

/-- The material put on the board (lines 231-235). -/
structure StandardMaterial where
  color : Color
  metalness : ℚ
  roughness : ℚ
  deriving DecidableEq, Repr

/-- The mesh an evaluation returns and the fields the script then sets on it:
the two operands it was built from, the number of geometry groups, the
material if one has been assigned, and the two shadow flags. -/
structure BoardMesh where
  fill : BoxGeometry
  hole : BoxGeometry
  groups : Nat
  material : Option StandardMaterial
  castShadow : Bool
  receiveShadow : Bool
  deriving DecidableEq, Repr

/-- Objects added to the scene. -/
inductive SceneObject where
  | terrain
  | water
  | cloud (n : Nat)
  | board (mesh : BoardMesh)
  | directionalLight
  | camera
  deriving DecidableEq, Repr

/-- Modelled from the spec: the script defines no error type; section 7 names
the error kind `GeometryError` raised for degenerate CSG operands. -/
inductive CsgError where
  | geometryError
  deriving DecidableEq, Repr

/-- Lines 230-237: what the script does with the evaluated mesh. -/
def finishBoard (board : BoardMesh) : BoardMesh :=
  { board with
    groups := 0
    material := some { color := ⟨0xffffff⟩, metalness := 0, roughness := 0 }
    castShadow := true
    receiveShadow := true }

/-- Lines 224-239, with the operands and the evaluator as parameters: the
brushes are evaluated, the result is finished and added to the scene. An
exception raised by the evaluator ends the script there. -/
def buildBoard (evaluate : BoxGeometry → BoxGeometry → Except CsgError BoardMesh)
    (fill hole : BoxGeometry) (scene : List SceneObject) : Except CsgError (List SceneObject) :=
  match evaluate fill hole with
  | .error e => .error e
  | .ok board => .ok (scene ++ [SceneObject.board (finishBoard board)])

/-- Modelled from the spec: the evaluator of three-bvh-csg, which line 228
calls, is not part of the sources. Section 4.5 gives its contract
`subtract(a, b) -> Mesh`: if an operand is degenerate (zero volume) the
operation fails with a `GeometryError` rather than emit a mesh; otherwise it
returns the mesh of `a` without `b`, untouched by the script so far. `groups`
is the number of material groups the returned geometry carries. -/
def Evaluator.evaluate (groups : Nat) (a b : BoxGeometry) : Except CsgError BoardMesh :=
  if a.degenerate ∨ b.degenerate then .error .geometryError
  else .ok { fill := a, hole := b, groups := groups, material := none, castShadow := false,
             receiveShadow := false }

/-- The scene when the board is built (lines 129-218). -/
def sceneBeforeBoard : List SceneObject :=
  [.terrain, .water, .cloud 1, .cloud 2, .cloud 3, .cloud 4]

/-! ## Terrain materials (script.js, lines 104-129) -/

/-- The GLSL modules imported on lines 8-11. -/
inductive ShaderSource where
  | terrainVertexShader
  | terrainFragmentShader
  | cloudVertexShader
  | cloudFragmentShader
  deriving DecidableEq, Repr

/-- The base materials the custom shader materials extend. -/
inductive BaseMaterial where
  | meshStandardMaterial
  | meshDepthMaterial
  deriving DecidableEq, Repr

/-- The uniform blocks of the script, as objects: a material refers to one of
them rather than holding a copy. -/
inductive UniformsRef where
  | uniforms
  | cloudUniforms
  deriving DecidableEq, Repr

/-- The values of the `depthPacking` option. -/
inductive DepthPacking where
  | basicDepthPacking
  | rgbaDepthPacking
  deriving DecidableEq, Repr

/-- The options a `CustomShaderMaterial` is built from (lines 104-123); an
option the script does not pass is `none`. -/
structure CustomShaderMaterial where
  baseMaterial : BaseMaterial
  vertexShader : ShaderSource
  fragmentShader : Option ShaderSource
  uniforms : UniformsRef
  silent : Bool
  metalness : Option ℚ
  roughness : Option ℚ
  color : Option Color
  depthPacking : Option DepthPacking
  deriving DecidableEq, Repr

/-- Lines 104-114. -/
def material : CustomShaderMaterial :=
  { baseMaterial := .meshStandardMaterial
    vertexShader := .terrainVertexShader
    fragmentShader := some .terrainFragmentShader
    uniforms := .uniforms
    silent := true
    metalness := some 0
    roughness := some 0.5
    color := some ⟨0x85D534⟩
    depthPacking := none }

/-- Lines 116-123. -/
def depthMaterial : CustomShaderMaterial :=
  { baseMaterial := .meshDepthMaterial
    vertexShader := .terrainVertexShader
    fragmentShader := none
    uniforms := .uniforms
    silent := true
    metalness := none
    roughness := none
    color := none
    depthPacking := some .rgbaDepthPacking }

/-- A mesh with the material of the colour pass and the material of the
depth (shadow) pass. -/
structure TerrainMesh where
  material : CustomShaderMaterial
  customDepthMaterial : CustomShaderMaterial
  castShadow : Bool
  receiveShadow : Bool
  deriving DecidableEq, Repr

/-- Lines 125-128. -/
def terrain : TerrainMesh :=
  { material := material, customDepthMaterial := depthMaterial, castShadow := true,
    receiveShadow := true }

/-- The values a uniform block holds in a state. -/
inductive UniformValues where
  | terrain (u : Uniforms)
  | cloud (c : CloudUniforms)
  deriving DecidableEq, Repr

/-- The current values of the block a material refers to. -/
def World.block (w : World) : UniformsRef → UniformValues
  | .uniforms => .terrain w.uniforms
  | .cloudUniforms => .cloud w.cloudUniforms

/-- Modelled from the spec: the GLSL sources and three-custom-shader-material
are not part of the sources. Section 4.2 describes the terrain height as
`evaluate(x, z, params)`, a pure function of the position and the Uniform
Parameters, invoked by the colour pass and by the depth pass. A pass drawn
with material `m` evaluates the vertex shader `m` names on the current values
of the uniforms block `m` refers to; `evaluate` gives, for each shader source,
the height function it implements. -/
def passHeight (evaluate : ShaderSource → UniformValues → ℚ → ℚ → ℚ) (w : World)
    (m : CustomShaderMaterial) (x z : ℚ) : ℚ :=
  evaluate m.vertexShader (w.block m.uniforms) x z

/-! ## Theorems -/

open MeasureTheory

/-- Invariant rule for a counted loop written as a fold over `List.range`. -/
theorem foldl_range_invariant {σ : Type} (P : Nat → σ → Prop) (f : σ → Nat → σ) (n : Nat)
    (s0 : σ) (h0 : P 0 s0) (hstep : ∀ k s, k < n → P k s → P (k + 1) (f s k)) :
    P n ((List.range n).foldl f s0) := by
  induction n with
  | zero => simpa using h0
  | succ m ih =>
    rw [List.range_succ, List.foldl_append]
    simp only [List.foldl_cons, List.foldl_nil]
    exact hstep m _ (Nat.lt_succ_self m)
      (ih (fun k s hk hP => hstep k s (Nat.lt_succ_of_lt hk) hP))

theorem index_lt_cube {size x y z : Nat} (hx : x < size) (hy : y < size) (hz : z < size) :
    x + size * y + size * size * z < size * size * size := by
  have h1 : x + size * y < size * size := by
    calc x + size * y < size + size * y := by omega
      _ = size * (y + 1) := by ring
      _ ≤ size * size := Nat.mul_le_mul_left _ hy
  calc x + size * y + size * size * z < size * size + size * size * z := by omega
    _ = size * size * (z + 1) := by ring
    _ ≤ size * size * size := Nat.mul_le_mul_left _ hz

theorem fillBody_inv (cell : Nat → Nat → Nat → Nat) (size m x y z : Nat) (st : FillState)
    (hx : x < size) (hy : y < size) (hz : z < size)
    (hm : m = x + size * y + size * size * z) (h : FillInv cell size m st) :
    FillInv cell size (m + 1) (fillBody cell z y st x) := by
  obtain ⟨hi, hlen, hidx, hw⟩ := h
  have hlt : m < size * size * size := hm ▸ index_lt_cube hx hy hz
  refine ⟨by simp [fillBody, hi], by simp [fillBody, storeCell, hlen], ?_, ?_⟩
  · simp [fillBody, hidx, hi, List.range_succ]
  · intro w hmem
    simp only [fillBody, List.mem_append, List.mem_singleton] at hmem
    rcases hmem with hold | hnew
    · obtain ⟨h1, h2, h3, h4, h5⟩ := hw w hold
      refine ⟨h1, h2, h3, h4, ?_⟩
      have hwlt : w.index < m := by
        have : w.index ∈ st.writes.map CellWrite.index := List.mem_map_of_mem _ hold
        rw [hidx] at this
        exact List.mem_range.mp this
      simp only [fillBody, storeCell, hi]
      rw [List.getElem?_set_ne (by omega)]
      exact h5
    · subst hnew
      refine ⟨hx, hy, hz, by simp [hi, hm], ?_⟩
      simp only [fillBody, storeCell]
      rw [List.getElem?_set_self (by omega)]

theorem fillLoopX_inv (cell : Nat → Nat → Nat → Nat) (size y z : Nat) (st : FillState)
    (hy : y < size) (hz : z < size)
    (h : FillInv cell size (size * y + size * size * z) st) :
    FillInv cell size (size * (y + 1) + size * size * z) (fillLoopX cell size z y st) := by
  have key := foldl_range_invariant
    (fun k s => FillInv cell size (k + size * y + size * size * z) s)
    (fillBody cell z y) size st (by simpa using h)
    (fun k s hk hP => by
      have := fillBody_inv cell size _ k y z s hk hy hz rfl hP
      have e : k + 1 + size * y + size * size * z = k + size * y + size * size * z + 1 := by
        ring
      simpa [e] using this)
  have e : size + size * y + size * size * z = size * (y + 1) + size * size * z := by ring
  simpa [fillLoopX, e] using key

theorem fillLoopY_inv (cell : Nat → Nat → Nat → Nat) (size z : Nat) (st : FillState)
    (hz : z < size) (h : FillInv cell size (size * size * z) st) :
    FillInv cell size (size * size * (z + 1)) (fillLoopY cell size z st) := by
  have key := foldl_range_invariant
    (fun k s => FillInv cell size (size * k + size * size * z) s)
    (fun s y => fillLoopX cell size z y s) size st (by simpa using h)
    (fun k s hk hP => fillLoopX_inv cell size k z s hk hz hP)
  have e : size * size + size * size * z = size * size * (z + 1) := by ring
  simpa [fillLoopY, e] using key

theorem fillLoopZ_inv (cell : Nat → Nat → Nat → Nat) (size : Nat) (st : FillState)
    (h : FillInv cell size 0 st) :
    FillInv cell size (size * size * size) (fillLoopZ cell size st) := by
  have key := foldl_range_invariant
    (fun k s => FillInv cell size (size * size * k) s)
    (fun s z => fillLoopY cell size z s) size st (by simpa using h)
    (fun k s hk hP => fillLoopY_inv cell size k s hk hP)
  simpa [fillLoopZ] using key

theorem fillCloud_inv (cell : Nat → Nat → Nat → Nat) (size : Nat) :
    FillInv cell size (size * size * size) (fillCloud cell size) := by
  apply fillLoopZ_inv
  refine ⟨rfl, by simp [fillInit], by simp [fillInit], ?_⟩
  intro w hw
  simp [fillInit] at hw

/-- A row-major index determines its lattice point. -/
theorem index_injective {size x y z x' y' z' : Nat} (hx : x < size) (hy : y < size)
    (hx' : x' < size) (hy' : y' < size)
    (h : x + size * y + size * size * z = x' + size * y' + size * size * z') :
    x = x' ∧ y = y' ∧ z = z' := by
  have hs : 0 < size := by omega
  have e1 : x + size * y + size * size * z = x + size * (y + size * z) := by ring
  have e2 : x' + size * y' + size * size * z' = x' + size * (y' + size * z') := by ring
  rw [e1, e2] at h
  have hxx : x = x' := by
    have := congrArg (· % size) h
    simpa [Nat.add_mul_mod_self_left, Nat.mod_eq_of_lt hx, Nat.mod_eq_of_lt hx'] using this
  subst hxx
  have h2 : y + size * z = y' + size * z' := by
    have := Nat.add_left_cancel h
    exact Nat.eq_of_mul_eq_mul_left hs this
  have hyy : y = y' := by
    have := congrArg (· % size) h2
    simpa [Nat.add_mul_mod_self_left, Nat.mod_eq_of_lt hy, Nat.mod_eq_of_lt hy'] using this
  subst hyy
  have h3 := Nat.add_left_cancel h2
  exact ⟨rfl, rfl, Nat.eq_of_mul_eq_mul_left hs h3⟩

/-- C1. For every size the cloud-volume fill writes exactly `size^3` cells:
the buffer has length `size*size*size`, the stores use the indices
`0, 1, ..., size^3 - 1` in this order (so the index stays in `[0, size^3)` and
each index is written exactly once), the running index ends at `size^3`, and
for every lattice point `(x, y, z)` of `[0, size)^3` the store made for it is
the one at index `x + size*y + size*size*z`, where the buffer then holds its
byte. -/
theorem fillCloud_layout (cell : Nat → Nat → Nat → Nat) (size : Nat) :
    (fillCloud cell size).cloudData.length = size * size * size ∧
    (fillCloud cell size).i = size * size * size ∧
    (fillCloud cell size).writes.map CellWrite.index = List.range (size * size * size) ∧
    (∀ w ∈ (fillCloud cell size).writes, w.index < size * size * size ∧
      w.x < size ∧ w.y < size ∧ w.z < size ∧
      w.index = w.x + size * w.y + size * size * w.z) ∧
    (∀ j, j < size * size * size →
      ((fillCloud cell size).writes.map CellWrite.index).count j = 1) ∧
    (∀ x y z, x < size → y < size → z < size →
      (⟨x + size * y + size * size * z, x, y, z⟩ : CellWrite) ∈ (fillCloud cell size).writes ∧
      (fillCloud cell size).cloudData[x + size * y + size * size * z]? = some (cell x y z)) := by
  obtain ⟨hi, hlen, hidx, hw⟩ := fillCloud_inv cell size
  refine ⟨hlen, hi, hidx, ?_, ?_, ?_⟩
  · intro w hmem
    obtain ⟨h1, h2, h3, h4, _⟩ := hw w hmem
    exact ⟨h4 ▸ index_lt_cube h1 h2 h3, h1, h2, h3, h4⟩
  · intro j hj
    rw [hidx]
    exact List.count_eq_one_of_mem (List.nodup_range _) (List.mem_range.mpr hj)
  · intro x y z hx hy hz
    have hj : x + size * y + size * size * z ∈
        (fillCloud cell size).writes.map CellWrite.index := by
      rw [hidx]
      exact List.mem_range.mpr (index_lt_cube hx hy hz)
    obtain ⟨w, hmem, hwi⟩ := List.mem_map.mp hj
    obtain ⟨h1, h2, _, h4, h5⟩ := hw w hmem
    obtain ⟨ex, ey, ez⟩ := index_injective h1 h2 hx hy (h4.symm.trans hwi)
    have hweq : w = ⟨x + size * y + size * size * z, x, y, z⟩ := by
      cases w
      simp_all
    refine ⟨hweq ▸ hmem, ?_⟩
    rw [← hwi, h5, ex, ey, ez]

theorem centred_bounds {size x : Nat} (hx : x < size) :
    -(1 / 2) ≤ centred size x ∧ centred size x < 1 / 2 := by
  have hs : (0 : ℝ) < size := by exact_mod_cast (by omega : 0 < size)
  have hx' : (x : ℝ) < size := by exact_mod_cast hx
  have hx0 : (0 : ℝ) ≤ x := by positivity
  unfold centred
  constructor
  · rw [le_div_iff₀ hs]; linarith
  · rw [div_lt_iff₀ hs]; linarith

theorem centred_eq_neg_half_iff {size x : Nat} (hx : x < size) :
    centred size x = -(1 / 2) ↔ x = 0 := by
  have hs : (0 : ℝ) < size := by exact_mod_cast (by omega : 0 < size)
  unfold centred
  rw [div_eq_iff hs.ne']
  constructor
  · intro h
    have : (x : ℝ) = 0 := by linarith
    exact_mod_cast this
  · intro h
    subst h
    simp
    ring

theorem centred_eq_zero_iff {size x : Nat} (hs : 0 < size) :
    centred size x = 0 ↔ 2 * x = size := by
  have hs' : (0 : ℝ) < size := by exact_mod_cast hs
  unfold centred
  rw [div_eq_iff hs'.ne']
  constructor
  · intro h
    have : (2 : ℝ) * x = size := by linarith
    exact_mod_cast this
  · intro h
    have : (2 : ℝ) * x = size := by exact_mod_cast h
    linarith

theorem centred_sq_le {size x : Nat} (hx : x < size) :
    centred size x * centred size x ≤ 1 / 4 := by
  obtain ⟨h1, h2⟩ := centred_bounds hx
  nlinarith

theorem centred_sq_eq_iff {size x : Nat} (hx : x < size) :
    centred size x * centred size x = 1 / 4 ↔ x = 0 := by
  rw [← centred_eq_neg_half_iff hx]
  obtain ⟨h1, h2⟩ := centred_bounds hx
  constructor
  · intro h
    have : (centred size x - 1 / 2) * (centred size x + 1 / 2) = 0 := by ring_nf; linarith
    rcases mul_eq_zero.mp this with h | h
    · linarith
    · linarith
  · intro h
    rw [h]; norm_num

theorem half_sqrt_three_sq : (Real.sqrt 3 / 2) ^ 2 = 3 / 4 := by
  rw [div_pow, Real.sq_sqrt (by norm_num)]
  norm_num

theorem half_sqrt_three_lt_one : Real.sqrt 3 / 2 < 1 := by
  have : Real.sqrt 3 < 2 := by
    rw [Real.sqrt_lt' (by norm_num)]
    norm_num
  linarith

theorem sumsq_nonneg (a b c : ℝ) : 0 ≤ a * a + b * b + c * c :=
  add_nonneg (add_nonneg (mul_self_nonneg a) (mul_self_nonneg b)) (mul_self_nonneg c)

theorem vecLength_nonneg (a b c : ℝ) : 0 ≤ vecLength a b c := Real.sqrt_nonneg _

theorem vecLength_eq_zero_iff (a b c : ℝ) : vecLength a b c = 0 ↔ a = 0 ∧ b = 0 ∧ c = 0 := by
  unfold vecLength
  rw [Real.sqrt_eq_zero (sumsq_nonneg a b c)]
  constructor
  · intro h
    have ha := mul_self_nonneg a
    have hb := mul_self_nonneg b
    have hc := mul_self_nonneg c
    refine ⟨?_, ?_, ?_⟩ <;> apply mul_self_eq_zero.mp <;> linarith
  · rintro ⟨rfl, rfl, rfl⟩
    simp

theorem length_le {size x y z : Nat} (hx : x < size) (hy : y < size) (hz : z < size) :
    vecLength (centred size x) (centred size y) (centred size z) ≤ Real.sqrt 3 / 2 := by
  unfold vecLength
  rw [Real.sqrt_le_left (by positivity), half_sqrt_three_sq]
  have := centred_sq_le hx
  have := centred_sq_le hy
  have := centred_sq_le hz
  linarith

theorem length_eq_iff {size x y z : Nat} (hx : x < size) (hy : y < size) (hz : z < size) :
    vecLength (centred size x) (centred size y) (centred size z) = Real.sqrt 3 / 2 ↔
      x = 0 ∧ y = 0 ∧ z = 0 := by
  have h1 := centred_sq_le hx
  have h2 := centred_sq_le hy
  have h3 := centred_sq_le hz
  rw [← centred_sq_eq_iff hx, ← centred_sq_eq_iff hy, ← centred_sq_eq_iff hz]
  unfold vecLength
  rw [Real.sqrt_eq_iff_mul_self_eq (sumsq_nonneg _ _ _) (by positivity)]
  have e : Real.sqrt 3 / 2 * (Real.sqrt 3 / 2) = 3 / 4 := by
    rw [← sq, half_sqrt_three_sq]
  rw [e]
  constructor
  · intro h
    refine ⟨?_, ?_, ?_⟩ <;> linarith
  · rintro ⟨e1, e2, e3⟩
    linarith

theorem falloff_bounds {size x y z : Nat} (hx : x < size) (hy : y < size) (hz : z < size) :
    1 - Real.sqrt 3 / 2 ≤ falloff size x y z ∧ falloff size x y z ≤ 1 := by
  have h1 := length_le hx hy hz
  have h2 := vecLength_nonneg (centred size x) (centred size y) (centred size z)
  unfold falloff
  constructor <;> linarith

theorem falloff_pos {size x y z : Nat} (hx : x < size) (hy : y < size) (hz : z < size) :
    0 < falloff size x y z := by
  have := (falloff_bounds hx hy hz).1
  have := half_sqrt_three_lt_one
  linarith

theorem length_eq_centreDist_div {size : Nat} (hs : 0 < size) (x y z : Nat) :
    vecLength (centred size x) (centred size y) (centred size z) =
      centreDist size x y z / size := by
  have hs' : (0 : ℝ) < size := by exact_mod_cast hs
  unfold vecLength centreDist centred
  rw [eq_div_iff hs'.ne']
  have e : (((x : ℝ) - size / 2) ^ 2 + ((y : ℝ) - size / 2) ^ 2 + ((z : ℝ) - size / 2) ^ 2) =
      (((x : ℝ) - size / 2) / size * (((x : ℝ) - size / 2) / size) +
        ((y : ℝ) - size / 2) / size * (((y : ℝ) - size / 2) / size) +
        ((z : ℝ) - size / 2) / size * (((z : ℝ) - size / 2) / size)) * ((size : ℝ) ^ 2) := by
    field_simp
    ring
  rw [e, Real.sqrt_mul (sumsq_nonneg _ _ _), Real.sqrt_sq hs'.le]

theorem falloff_eq_one_iff {size : Nat} (hs : 0 < size) (x y z : Nat) :
    falloff size x y z = 1 ↔ 2 * x = size ∧ 2 * y = size ∧ 2 * z = size := by
  rw [← centred_eq_zero_iff hs, ← centred_eq_zero_iff hs, ← centred_eq_zero_iff hs,
    ← vecLength_eq_zero_iff]
  unfold falloff
  constructor <;> intro h <;> linarith

theorem weight_eq_one_iff {size x y z : Nat} (hx : x < size) (hy : y < size) (hz : z < size) :
    weight size x y z = 1 ↔ falloff size x y z = 1 := by
  have hp := falloff_pos hx hy hz
  have hb := (falloff_bounds hx hy hz).2
  unfold weight
  constructor
  · intro h
    nlinarith
  · intro h
    rw [h]; ring

/-- C8. The falloff weight of a cell is `d*d` with `d = 1 - dist/size`, linear
in the Euclidean distance `dist` of the lattice point from the volume centre;
the weight is 1 exactly at the centre, and of two lattice points of the volume
the one nearer to the centre has the strictly larger weight. -/
theorem weight_strictly_decreasing (size px py pz qx qy qz : Nat) (hs : 0 < size)
    (hpx : px < size) (hpy : py < size) (hpz : pz < size)
    (hqx : qx < size) (hqy : qy < size) (hqz : qz < size) :
    weight size px py pz = falloff size px py pz * falloff size px py pz ∧
    falloff size px py pz = 1 - centreDist size px py pz / size ∧
    (weight size px py pz = 1 ↔ centreDist size px py pz = 0) ∧
    (centreDist size px py pz = 0 ↔ 2 * px = size ∧ 2 * py = size ∧ 2 * pz = size) ∧
    (centreDist size px py pz < centreDist size qx qy qz →
      weight size qx qy qz < weight size px py pz) := by
  have hs' : (0 : ℝ) < size := by exact_mod_cast hs
  have hlin : ∀ x y z : Nat, falloff size x y z = 1 - centreDist size x y z / size := by
    intro x y z
    unfold falloff
    rw [length_eq_centreDist_div hs]
  have hzero : ∀ x y z : Nat, falloff size x y z = 1 ↔ centreDist size x y z = 0 := by
    intro x y z
    rw [hlin]
    constructor
    · intro h
      have : centreDist size x y z / size = 0 := by linarith
      rcases div_eq_zero_iff.mp this with h | h
      · exact h
      · exact absurd h hs'.ne'
    · intro h
      rw [h]; simp
  refine ⟨rfl, hlin _ _ _, ?_, ?_, ?_⟩
  · rw [weight_eq_one_iff hpx hpy hpz, hzero]
  · rw [← hzero, falloff_eq_one_iff hs]
  · intro hlt
    have hp := falloff_pos hpx hpy hpz
    have hq := falloff_pos hqx hqy hqz
    have hd : falloff size qx qy qz < falloff size px py pz := by
      rw [hlin, hlin]
      have := div_lt_div_of_pos_right hlt hs'
      linarith
    unfold weight
    nlinarith

/-- The weight comparison at size 4 for the centre cell and the corner
`(0, 0, 0)`. -/
theorem weight_strictly_decreasing_witness :
    weight 4 2 2 2 = falloff 4 2 2 2 * falloff 4 2 2 2 ∧
    falloff 4 2 2 2 = 1 - centreDist 4 2 2 2 / (4 : Nat) ∧
    (weight 4 2 2 2 = 1 ↔ centreDist 4 2 2 2 = 0) ∧
    (centreDist 4 2 2 2 = 0 ↔ 2 * 2 = 4 ∧ 2 * 2 = 4 ∧ 2 * 2 = 4) ∧
    (centreDist 4 2 2 2 < centreDist 4 0 0 0 → weight 4 0 0 0 < weight 4 2 2 2) :=
  weight_strictly_decreasing 4 2 2 2 0 0 0 (by decide) (by decide) (by decide) (by decide)
    (by decide) (by decide) (by decide)

/-- C10. The falloff never reaches zero inside the volume: for every positive
size and every lattice point of `[0, size)^3`, `1 - sqrt 3 / 2 <= d <= 1`, the
lower bound being attained at the corner `(0,0,0)` and nowhere else; so the
weight `d*d` is at least `(1 - sqrt 3 / 2)^2 > 0` on every cell, it is `1/4`
at the centre `(0, size/2, size/2)` of the face `x = 0`, and `d` is the
unclamped value `1 - dist/size`. -/
theorem falloff_never_zero (size x y z : Nat) (hs : 0 < size)
    (hx : x < size) (hy : y < size) (hz : z < size) :
    1 - Real.sqrt 3 / 2 ≤ falloff size x y z ∧ falloff size x y z ≤ 1 ∧
    falloff size 0 0 0 = 1 - Real.sqrt 3 / 2 ∧
    (falloff size x y z = 1 - Real.sqrt 3 / 2 ↔ x = 0 ∧ y = 0 ∧ z = 0) ∧
    (1 - Real.sqrt 3 / 2) ^ 2 ≤ weight size x y z ∧ 0 < (1 - Real.sqrt 3 / 2) ^ 2 ∧
    (∀ k, size = 2 * k → weight size 0 k k = 1 / 4) ∧
    falloff size x y z = 1 - centreDist size x y z / size := by
  have hb := falloff_bounds hx hy hz
  have hlt := half_sqrt_three_lt_one
  have hmin : ∀ a b c : Nat, a < size → b < size → c < size →
      (falloff size a b c = 1 - Real.sqrt 3 / 2 ↔ a = 0 ∧ b = 0 ∧ c = 0) := by
    intro a b c ha hb hc
    rw [← length_eq_iff ha hb hc]
    unfold falloff
    constructor <;> intro h <;> linarith
  refine ⟨hb.1, hb.2, (hmin 0 0 0 hs hs hs).mpr ⟨rfl, rfl, rfl⟩, hmin x y z hx hy hz, ?_,
    by nlinarith, ?_, ?_⟩
  · unfold weight
    nlinarith [hb.1]
  · intro k hk
    subst hk
    have hk0 : (0 : ℝ) < k := by exact_mod_cast (by omega : 0 < k)
    have c0 : centred (2 * k) 0 = -(1 / 2) := (centred_eq_neg_half_iff hs).mpr rfl
    have ck : centred (2 * k) k = 0 := (centred_eq_zero_iff hs).mpr rfl
    have e : (-(1 / 2) : ℝ) * -(1 / 2) + 0 * 0 + 0 * 0 = (1 / 2) ^ 2 := by norm_num
    unfold weight falloff vecLength
    rw [c0, ck, e, Real.sqrt_sq (by norm_num)]
    norm_num
  · unfold falloff
    rw [length_eq_centreDist_div hs]

/-- The falloff bounds at size 2, cell `(0, 1, 1)`. -/
theorem falloff_never_zero_witness :
    1 - Real.sqrt 3 / 2 ≤ falloff 2 0 1 1 ∧ falloff 2 0 1 1 ≤ 1 ∧
    falloff 2 0 0 0 = 1 - Real.sqrt 3 / 2 ∧
    (falloff 2 0 1 1 = 1 - Real.sqrt 3 / 2 ↔ 0 = 0 ∧ 1 = 0 ∧ 1 = 0) ∧
    (1 - Real.sqrt 3 / 2) ^ 2 ≤ weight 2 0 1 1 ∧ 0 < (1 - Real.sqrt 3 / 2) ^ 2 ∧
    (∀ k, 2 = 2 * k → weight 2 0 k k = 1 / 4) ∧
    falloff 2 0 1 1 = 1 - centreDist 2 0 1 1 / (2 : Nat) :=
  falloff_never_zero 2 0 1 1 (by decide) (by decide) (by decide) (by decide)

theorem step_frame (env : Env) (w : World) (e : Event) :
    (step env w e).cloudUniforms.frame = w.cloudUniforms.frame + (if e.isTick then 1 else 0) := by
  cases e <;> try rfl
  case guiColor b c => cases b <;> rfl

theorem run_frame (env : Env) (events : List Event) (w : World) :
    (run env w events).cloudUniforms.frame = w.cloudUniforms.frame + events.countP Event.isTick := by
  induction events generalizing w with
  | nil => simp [run]
  | cons e es ih =>
    have := ih (step env w e)
    simp only [run, List.foldl_cons] at this ⊢
    rw [this, step_frame, List.countP_cons]
    ring

theorem solid_measurable (b : BoxGeometry) : MeasurableSet b.solid :=
  measurableSet_Icc.prod (measurableSet_Icc.prod measurableSet_Icc)

theorem solid_volume (b : BoxGeometry) (hw : 0 ≤ b.width) (hh : 0 ≤ b.height)
    (hd : 0 ≤ b.depth) : volume b.solid = ENNReal.ofReal ((b.volume : ℚ) : ℝ) := by
  have hw' : (0 : ℝ) ≤ b.width := by exact_mod_cast hw
  have hh' : (0 : ℝ) ≤ b.height := by exact_mod_cast hh
  have hd' : (0 : ℝ) ≤ b.depth := by exact_mod_cast hd
  unfold BoxGeometry.solid BoxGeometry.volume
  rw [Measure.volume_eq_prod, Measure.prod_prod, Measure.volume_eq_prod, Measure.prod_prod,
    Real.volume_Icc, Real.volume_Icc, Real.volume_Icc]
  have e : ∀ t : ℝ, t / 2 - -(t / 2) = t := fun t => by ring
  rw [e, e, e, ← ENNReal.ofReal_mul hh', ← ENNReal.ofReal_mul hw']
  push_cast
  ring_nf

theorem solid_inter (a b : BoxGeometry) : a.solid ∩ b.solid = (a.common b).solid := by
  unfold BoxGeometry.solid BoxGeometry.common
  rw [Set.prod_inter_prod, Set.prod_inter_prod, Set.Icc_inter_Icc, Set.Icc_inter_Icc,
    Set.Icc_inter_Icc]
  have e : ∀ u v : ℚ, (-((u : ℝ) / 2)) ⊔ (-((v : ℝ) / 2)) = -(((min u v : ℚ) : ℝ) / 2) ∧
      ((u : ℝ) / 2) ⊓ ((v : ℝ) / 2) = ((min u v : ℚ) : ℝ) / 2 := by
    intro u v
    rcases le_total u v with h | h
    · have h' : (u : ℝ) ≤ v := by exact_mod_cast h
      rw [min_eq_left h]
      constructor
      · exact sup_eq_left.mpr (by linarith)
      · exact inf_eq_left.mpr (by linarith)
    · have h' : (v : ℝ) ≤ u := by exact_mod_cast h
      rw [min_eq_right h]
      constructor
      · exact sup_eq_right.mpr (by linarith)
      · exact inf_eq_right.mpr (by linarith)
  simp only [(e _ _).1, (e _ _).2]

/-- The solid `a` without `b` encloses the volume `subtractionVolume a b`. -/
theorem diff_volume (a b : BoxGeometry) (haw : 0 ≤ a.width) (hah : 0 ≤ a.height)
    (had : 0 ≤ a.depth) (hbw : 0 ≤ b.width) (hbh : 0 ≤ b.height) (hbd : 0 ≤ b.depth) :
    volume (subtractionSolid a b) = ENNReal.ofReal ((subtractionVolume a b : ℚ) : ℝ) := by
  show volume (a.solid \ b.solid) = _
  have hc : volume (a.solid ∩ b.solid) = ENNReal.ofReal (((a.common b).volume : ℚ) : ℝ) := by
    rw [solid_inter]
    exact solid_volume _ (le_min haw hbw) (le_min hah hbh) (le_min had hbd)
  have hsum := (measure_inter_add_diff a.solid (solid_measurable b) :
    volume (a.solid ∩ b.solid) + volume (a.solid \ b.solid) = volume a.solid)
  rw [hc, solid_volume a haw hah had] at hsum
  have hcv : (0 : ℝ) ≤ (((a.common b).volume : ℚ) : ℝ) := by
    have : 0 ≤ (a.common b).volume := by
      unfold BoxGeometry.volume BoxGeometry.common
      exact mul_nonneg (mul_nonneg (le_min haw hbw) (le_min hah hbh)) (le_min had hbd)
    exact_mod_cast this
  unfold subtractionVolume
  push_cast
  rw [ENNReal.ofReal_sub _ hcv]
  exact ENNReal.eq_sub_of_add_eq ENNReal.ofReal_ne_top (by rw [add_comm]; exact hsum)

/-- C2 (as stated, refuted). The board solid, the 11 x 2 x 11 box without the
concentric 10 x 2.1 x 10 box, encloses volume 42, which exceeds
`11*2*11 - 10*2.1*10 = 32` by 10. -/
theorem board_volume_not_32 :
    volume (subtractionSolid boardFill boardHole) = ENNReal.ofReal 42 ∧
    subtractionVolume boardFill boardHole = 42 ∧
    (11 * 2 * 11 - 10 * 2.1 * 10 : ℚ) = 32 ∧
    subtractionVolume boardFill boardHole - (11 * 2 * 11 - 10 * 2.1 * 10) = 10 ∧
    volume (subtractionSolid boardFill boardHole) ≠ ENNReal.ofReal 32 := by
  have hv : subtractionVolume boardFill boardHole = 42 := by
    norm_num [subtractionVolume, BoxGeometry.volume, BoxGeometry.common, boardFill, boardHole]
  have hm : volume (subtractionSolid boardFill boardHole) = ENNReal.ofReal 42 := by
    have h := diff_volume boardFill boardHole (by norm_num [boardFill])
      (by norm_num [boardFill]) (by norm_num [boardFill]) (by norm_num [boardHole])
      (by norm_num [boardHole]) (by norm_num [boardHole])
    rw [hv] at h
    simpa [subtractionSolid] using h
  refine ⟨hm, hv, by norm_num, by rw [hv]; norm_num, ?_⟩
  rw [hm]
  intro h
  have := (ENNReal.ofReal_eq_ofReal_iff (by norm_num) (by norm_num)).mp h
  norm_num at this

/-- C2 (amended). Subtracting the concentric 10 x 2.1 x 10 box from the
11 x 2 x 11 box leaves a solid whose enclosed volume is strictly positive and
equal to `11*2*11 - 10*2*10 = 42`: the part removed is the 10 x 2 x 10 box the
two operands have in common. -/
theorem board_volume :
    boardFill.solid ∩ boardHole.solid = (BoxGeometry.solid ⟨10, 2, 10⟩) ∧
    volume (subtractionSolid boardFill boardHole) = ENNReal.ofReal (11 * 2 * 11 - 10 * 2 * 10) ∧
    volume (subtractionSolid boardFill boardHole) = ENNReal.ofReal 42 ∧
    0 < volume (subtractionSolid boardFill boardHole) ∧
    subtractionVolume boardFill boardHole = 11 * 2 * 11 - 10 * 2 * 10 ∧
    0 < subtractionVolume boardFill boardHole := by
  have hv : subtractionVolume boardFill boardHole = 42 := by
    norm_num [subtractionVolume, BoxGeometry.volume, BoxGeometry.common, boardFill, boardHole]
  have hm : volume (subtractionSolid boardFill boardHole) = ENNReal.ofReal 42 := by
    have h := diff_volume boardFill boardHole (by norm_num [boardFill])
      (by norm_num [boardFill]) (by norm_num [boardFill]) (by norm_num [boardHole])
      (by norm_num [boardHole]) (by norm_num [boardHole])
    rw [hv] at h
    simpa [subtractionSolid] using h
  have hc : boardFill.common boardHole = ⟨10, 2, 10⟩ := by
    norm_num [BoxGeometry.common, boardFill, boardHole]
  refine ⟨by rw [solid_inter, hc], ?_, hm, ?_, by rw [hv]; norm_num, by rw [hv]; norm_num⟩
  · rw [hm]; norm_num
  · rw [hm]; norm_num

/-- C3. For every `(x, z)`, every state of the uniform values and whatever
height function the vertex shader implements, the height in the depth (shadow)
pass of the terrain equals the height in its colour pass: the two materials
name the same vertex shader and refer to the same uniforms block, so both
passes evaluate the terrain shader on the current terrain uniforms, also right
after a parameter has been changed from the panel or the time written by a
tick. Both shared options are needed: a depth material naming another shader,
or referring to another block, can give a different height. -/
theorem depth_pass_height_eq (evaluate : ShaderSource → UniformValues → ℚ → ℚ → ℚ) (w : World)
    (x z : ℚ) :
    passHeight evaluate w terrain.customDepthMaterial x z =
      passHeight evaluate w terrain.material x z ∧
    terrain.customDepthMaterial.vertexShader = terrain.material.vertexShader ∧
    terrain.customDepthMaterial.uniforms = terrain.material.uniforms ∧
    w.block terrain.customDepthMaterial.uniforms = UniformValues.terrain w.uniforms ∧
    w.block terrain.material.uniforms = UniformValues.terrain w.uniforms ∧
    passHeight evaluate w terrain.material x z =
      evaluate ShaderSource.terrainVertexShader (UniformValues.terrain w.uniforms) x z ∧
    passHeight evaluate w terrain.customDepthMaterial x z =
      evaluate ShaderSource.terrainVertexShader (UniformValues.terrain w.uniforms) x z ∧
    (∀ env v, passHeight evaluate (step env w (Event.guiStrength v)) terrain.material x z =
        evaluate ShaderSource.terrainVertexShader
          (UniformValues.terrain { w.uniforms with uStrength := v }) x z ∧
      passHeight evaluate (step env w (Event.guiStrength v)) terrain.customDepthMaterial x z =
        evaluate ShaderSource.terrainVertexShader
          (UniformValues.terrain { w.uniforms with uStrength := v }) x z) ∧
    (∀ env t, passHeight evaluate (tick env t w) terrain.material x z =
        evaluate ShaderSource.terrainVertexShader
          (UniformValues.terrain { w.uniforms with uTime := t }) x z ∧
      passHeight evaluate (tick env t w) terrain.customDepthMaterial x z =
        evaluate ShaderSource.terrainVertexShader
          (UniformValues.terrain { w.uniforms with uTime := t }) x z) ∧
    (∀ env e, passHeight evaluate (step env w e) terrain.customDepthMaterial x z =
      passHeight evaluate (step env w e) terrain.material x z) ∧
    (∃ ev : ShaderSource → UniformValues → ℚ → ℚ → ℚ,
      passHeight ev w { depthMaterial with vertexShader := ShaderSource.cloudVertexShader } x z ≠
        passHeight ev w terrain.material x z) ∧
    (∃ ev : ShaderSource → UniformValues → ℚ → ℚ → ℚ,
      passHeight ev w { depthMaterial with uniforms := UniformsRef.cloudUniforms } x z ≠
        passHeight ev w terrain.material x z) := by
  refine ⟨rfl, rfl, rfl, rfl, rfl, rfl, rfl, fun _ _ => ⟨rfl, rfl⟩, fun _ _ => ⟨rfl, rfl⟩,
    fun _ _ => rfl, ?_, ?_⟩
  · refine ⟨fun s _ _ _ => match s with
      | ShaderSource.terrainVertexShader => 0
      | _ => 1, ?_⟩
    simp [passHeight, terrain, material, depthMaterial]
  · refine ⟨fun _ u _ _ => match u with
      | UniformValues.terrain _ => 0
      | UniformValues.cloud _ => 1, ?_⟩
    simp [passHeight, terrain, material, depthMaterial, World.block]

/-- C4. A tick performs exactly six effects, each once and in this order:
write the elapsed time into the time uniform, copy the camera position into
the cloud `cameraPos` uniform, increment the cloud frame counter, update the
controls, submit one render, request one animation frame. The three uniform
writes come before the render. The controls update runs once, on the controls
state and camera of before the tick, after the camera position has been
copied and before the render: the frame submitted carries the three new
uniform values and the updated camera. -/
theorem tick_effects_in_order (env : Env) (elapsedTime : ℚ) (w : World) :
    ∃ frame : Frame,
      (tick env elapsedTime w).log = w.log ++
        [Effect.writeTime elapsedTime, Effect.copyCameraPos w.camera.position,
         Effect.incrementFrame, Effect.controlsUpdate, Effect.render frame,
         Effect.requestAnimationFrame] ∧
      (tick env elapsedTime w).frames = w.frames ++ [frame] ∧
      (tick env elapsedTime w).scheduled = w.scheduled + 1 ∧
      frame.uniforms.uTime = elapsedTime ∧
      frame.cloudUniforms.cameraPos = w.camera.position ∧
      frame.cloudUniforms.frame = w.cloudUniforms.frame + 1 ∧
      (∀ pre post, (tick env elapsedTime w).log = w.log ++ pre ++ [Effect.render frame] ++ post →
        ∀ e ∈ post, e.isUniformWrite = false) ∧
      (tick env elapsedTime w).controls = (env.controlsUpdate w.controls w.camera).1 ∧
      (tick env elapsedTime w).camera = (env.controlsUpdate w.controls w.camera).2 ∧
      frame =
        { uniforms := { w.uniforms with uTime := elapsedTime }
          cloudUniforms :=
            { w.cloudUniforms with
              cameraPos := w.camera.position, frame := w.cloudUniforms.frame + 1 }
          camera := (env.controlsUpdate w.controls w.camera).2 } ∧
      (tick env elapsedTime w).uniforms.uTime = elapsedTime ∧
      (tick env elapsedTime w).cloudUniforms.cameraPos = w.camera.position ∧
      (tick env elapsedTime w).cloudUniforms.frame = w.cloudUniforms.frame + 1 ∧
      (tick env elapsedTime w).debugObject = w.debugObject ∧
      (tick env elapsedTime w).sizes = w.sizes ∧
      (tick env elapsedTime w).environmentLoaded = w.environmentLoaded := by
  refine ⟨currentFrame (updateControls env (incrementFrame (copyCameraPos
    (writeTime elapsedTime w)))), ?_, rfl, rfl, rfl, rfl, rfl, ?_, rfl, rfl, rfl, rfl, rfl, rfl,
    rfl, rfl, rfl⟩
  · simp [tick, requestAnimationFrame, render, updateControls, incrementFrame, copyCameraPos,
      writeTime]
  · intro pre post h e he
    have hlog : (tick env elapsedTime w).log = w.log ++
        ([Effect.writeTime elapsedTime, Effect.copyCameraPos w.camera.position,
         Effect.incrementFrame, Effect.controlsUpdate] ++
         [Effect.render (currentFrame (updateControls env (incrementFrame (copyCameraPos
           (writeTime elapsedTime w)))))] ++ [Effect.requestAnimationFrame]) := by
      simp [tick, requestAnimationFrame, render, updateControls, incrementFrame, copyCameraPos,
        writeTime]
    rw [hlog] at h
    simp only [List.append_assoc] at h
    have h2 := List.append_cancel_left h
    rcases pre with _ | ⟨p1, _ | ⟨p2, _ | ⟨p3, _ | ⟨p4, _ | ⟨p5, _ | ⟨p6, pre⟩⟩⟩⟩⟩⟩ <;>
      simp at h2
    obtain ⟨-, -, -, -, hp⟩ := h2
    subst hp
    simp at he
    subst he
    rfl

/-- C5. A tick changes only the time field of the terrain uniforms, and of the
cloud uniforms only `cameraPos` and `frame`: the four terrain shape values,
the six biome colours and the cloud threshold, opacity, range, steps, base
colour and texture are the same after the tick as before it. -/
theorem tick_changes_only_time (env : Env) (elapsedTime : ℚ) (w : World) :
    (tick env elapsedTime w).uniforms = { w.uniforms with uTime := elapsedTime } ∧
    (tick env elapsedTime w).uniforms.uPositionFrequency = w.uniforms.uPositionFrequency ∧
    (tick env elapsedTime w).uniforms.uStrength = w.uniforms.uStrength ∧
    (tick env elapsedTime w).uniforms.uWarpFrequency = w.uniforms.uWarpFrequency ∧
    (tick env elapsedTime w).uniforms.uWarpStrength = w.uniforms.uWarpStrength ∧
    (tick env elapsedTime w).uniforms.uColorWaterDeep = w.uniforms.uColorWaterDeep ∧
    (tick env elapsedTime w).uniforms.uColorWaterSurface = w.uniforms.uColorWaterSurface ∧
    (tick env elapsedTime w).uniforms.uColorSand = w.uniforms.uColorSand ∧
    (tick env elapsedTime w).uniforms.uColorGrass = w.uniforms.uColorGrass ∧
    (tick env elapsedTime w).uniforms.uColorSnow = w.uniforms.uColorSnow ∧
    (tick env elapsedTime w).uniforms.uColorRock = w.uniforms.uColorRock ∧
    (tick env elapsedTime w).cloudUniforms =
      { w.cloudUniforms with
        cameraPos := w.camera.position, frame := w.cloudUniforms.frame + 1 } ∧
    (tick env elapsedTime w).cloudUniforms.threshold = w.cloudUniforms.threshold ∧
    (tick env elapsedTime w).cloudUniforms.opacity = w.cloudUniforms.opacity ∧
    (tick env elapsedTime w).cloudUniforms.range = w.cloudUniforms.range ∧
    (tick env elapsedTime w).cloudUniforms.steps = w.cloudUniforms.steps ∧
    (tick env elapsedTime w).cloudUniforms.base = w.cloudUniforms.base ∧
    (tick env elapsedTime w).cloudUniforms.map = w.cloudUniforms.map ∧
    (tick env elapsedTime w).debugObject = w.debugObject :=
  ⟨rfl, rfl, rfl, rfl, rfl, rfl, rfl, rfl, rfl, rfl, rfl, rfl, rfl, rfl, rfl, rfl, rfl, rfl, rfl⟩

/-- C6. For every pair of box operands of which at least one is degenerate
(zero volume), the board construction fails with a `GeometryError` and yields
no scene with a mesh added: the evaluator raises the error and the script,
which has no handler, stops there. The construction fails only for such
operands; for all others, the script's own 11 x 2 x 11 and 10 x 2.1 x 10 among
them, the evaluated mesh gets its groups cleared, the white material and both
shadow flags, and is appended to the scene. -/
theorem degenerate_board_fails (groups : Nat) (fill hole : BoxGeometry)
    (scene : List SceneObject) (h : fill.degenerate ∨ hole.degenerate) :
    Evaluator.evaluate groups fill hole = Except.error CsgError.geometryError ∧
    buildBoard (Evaluator.evaluate groups) fill hole scene = Except.error CsgError.geometryError ∧
    (∀ scene', buildBoard (Evaluator.evaluate groups) fill hole scene ≠ Except.ok scene') ∧
    (∀ a b : BoxGeometry, (∃ e, buildBoard (Evaluator.evaluate groups) a b scene = Except.error e) ↔
      (a.degenerate ∨ b.degenerate)) ∧
    (∀ a b : BoxGeometry, ¬ (a.degenerate ∨ b.degenerate) →
      buildBoard (Evaluator.evaluate groups) a b scene = Except.ok (scene ++ [SceneObject.board
        { fill := a, hole := b, groups := 0,
          material := some { color := ⟨0xffffff⟩, metalness := 0, roughness := 0 },
          castShadow := true, receiveShadow := true }])) ∧
    ¬ (boardFill.degenerate ∨ boardHole.degenerate) ∧
    buildBoard (Evaluator.evaluate groups) boardFill boardHole scene =
      Except.ok (scene ++ [SceneObject.board
        { fill := boardFill, hole := boardHole, groups := 0,
          material := some { color := ⟨0xffffff⟩, metalness := 0, roughness := 0 },
          castShadow := true, receiveShadow := true }]) := by
  have hok : ∀ a b : BoxGeometry, ¬ (a.degenerate ∨ b.degenerate) →
      buildBoard (Evaluator.evaluate groups) a b scene = Except.ok (scene ++ [SceneObject.board
        { fill := a, hole := b, groups := 0,
          material := some { color := ⟨0xffffff⟩, metalness := 0, roughness := 0 },
          castShadow := true, receiveShadow := true }]) := by
    intro a b hab
    simp [buildBoard, Evaluator.evaluate, hab, finishBoard]
  have herr : ∀ a b : BoxGeometry, (a.degenerate ∨ b.degenerate) →
      buildBoard (Evaluator.evaluate groups) a b scene = Except.error CsgError.geometryError := by
    intro a b hab
    simp [buildBoard, Evaluator.evaluate, hab]
  have hboard : ¬ (boardFill.degenerate ∨ boardHole.degenerate) := by
    norm_num [BoxGeometry.degenerate, BoxGeometry.volume, boardFill, boardHole]
  refine ⟨by simp [Evaluator.evaluate, h], herr fill hole h, ?_, ?_, hok, hboard,
    hok boardFill boardHole hboard⟩
  · intro scene' hs
    rw [herr fill hole h] at hs
    cases hs
  · intro a b
    constructor
    · rintro ⟨e, he⟩
      by_contra hab
      rw [hok a b hab] at he
      cases he
    · intro hab
      exact ⟨_, herr a b hab⟩

/-- The failure at a fill box of width 0, with the script's hole and the scene
as it is when the board is built. -/
theorem degenerate_board_fails_witness :
    ((BoxGeometry.mk 0 2 11).degenerate ∨ boardHole.degenerate) ∧
    buildBoard (Evaluator.evaluate 2) ⟨0, 2, 11⟩ boardHole sceneBeforeBoard =
      Except.error CsgError.geometryError :=
  ⟨Or.inl (by norm_num [BoxGeometry.degenerate, BoxGeometry.volume]),
    (degenerate_board_fails 2 ⟨0, 2, 11⟩ boardHole sceneBeforeBoard
      (Or.inl (by norm_num [BoxGeometry.degenerate, BoxGeometry.volume]))).2.1⟩

/-- C9. The cloud frame counter equals the number of ticks executed: it starts
at 0, every tick increases it by exactly 1 (so it strictly increases from tick
to tick), no other callback changes it, and after any run of callbacks its
value is the number of ticks among them. -/
theorem frame_counts_ticks (env : Env) (sizes : Sizes) :
    (initialWorld sizes).cloudUniforms.frame = 0 ∧
    (∀ t w, (tick env t w).cloudUniforms.frame = w.cloudUniforms.frame + 1) ∧
    (∀ t w, w.cloudUniforms.frame < (tick env t w).cloudUniforms.frame) ∧
    (∀ w e, e.isTick = false → (step env w e).cloudUniforms.frame = w.cloudUniforms.frame) ∧
    (∀ events, (run env (initialWorld sizes) events).cloudUniforms.frame =
      events.countP Event.isTick) ∧
    (∀ times : List ℚ, (run env (initialWorld sizes) (times.map Event.tick)).cloudUniforms.frame =
      times.length) := by
  refine ⟨rfl, fun _ _ => rfl, fun t w => ?_, fun w e he => ?_, fun events => ?_, fun times => ?_⟩
  · show w.cloudUniforms.frame < w.cloudUniforms.frame + 1
    omega
  · rw [step_frame, he]; simp
  · rw [run_frame]
    show 0 + _ = _
    omega
  · rw [run_frame]
    show 0 + _ = _
    have : (times.map Event.tick).countP Event.isTick = times.length := by
      induction times with
      | nil => rfl
      | cons t ts ih => simp [List.countP_cons, Event.isTick, ih]
    omega

end ProceduralMap
